import Mathlib

/-!
Verification of the tctfs tropical-cyclone pipeline.

Each service translated here keeps the structure of its Python source:
numeric values are modelled as rationals (reals only where the code takes
non-integer powers), `None`-able fields as `Option`, and raised/caught
exceptions as `Except` values threaded explicitly.  Times are rationals,
measured in seconds from an arbitrary epoch unless noted otherwise.
-/

namespace TCTFS

/-! ### Gale arrival service (src/services/zones/gale_arrival.py) -/

/-- Embedding of `GaleArrivalService.adjust_tofi_for_motion`.  `tofi` is in hours here so
that the `timedelta(hours=adjustment_hours)` addition is plain addition.
`speed` is the `forward_speed_kt` argument, `fpMotion` the forecast point's
`motion_speed_kt` entry; Python truthiness makes both `None` and `0` fall
back to the default of 10 kt. -/
def adjust_tofi_for_motion (tofi : ℚ) (fpMotion : Option ℚ) (speed : Option ℚ) : ℚ :=
  let forward_speed_kt : ℚ :=
    match speed with
    | none => fpMotion.getD 10
    | some v => if v = 0 then fpMotion.getD 10 else v
  let speed_ratio := forward_speed_kt / 15
  let adjustment_hours := (1 - speed_ratio) * 3
  tofi + adjustment_hours

/-- The three outcomes of `GaleArrivalService.classify_arrival_window`. -/
inductive ArrivalClass where
  | warning
  | watch
  | noZone
  deriving DecidableEq, Repr

/-- Embedding of `GaleArrivalService.classify_arrival_window`; `tofi` and `current_time`
are in seconds, and `hours_until = (tofi - current_time).total_seconds() / 3600`. -/
def classify_arrival_window (tofi current_time : ℚ) : ArrivalClass :=
  let hours_until := (tofi - current_time) / 3600
  if hours_until ≤ 24 then .warning
  else if hours_until ≤ 48 then .watch
  else .noZone

/-! ### Polygon builder threshold split (src/services/zones/polygon_builder.py) -/

/-- A TOFI entry as consumed by `split_by_threshold`: its `tofi_utc`
timestamp (seconds) plus an opaque payload standing for the coastal
segment data carried alongside. -/
structure TofiEntry where
  tofi_utc : ℚ
  payload : ℕ
  deriving DecidableEq, Repr

/-- Embedding of `PolygonBuilderService.split_by_threshold`: one pass over the entries,
appending to the `warnings` list when `hours_until ≤ 24`, to `watches`
when `hours_until ≤ 48`, and dropping the entry otherwise.  Returns the
pair (warnings, watches). -/
def split_by_threshold (tofi_data : List TofiEntry) (current_time : ℚ) :
    List TofiEntry × List TofiEntry :=
  match tofi_data with
  | [] => ([], [])
  | e :: rest =>
    let (ws, wt) := split_by_threshold rest current_time
    let hours_until := (e.tofi_utc - current_time) / 3600
    if hours_until ≤ 24 then (e :: ws, wt)
    else if hours_until ≤ 48 then (ws, e :: wt)
    else (ws, wt)

/-! ### Spheroid service (src/services/geodesy/spheroid.py) -/

/-- The transcendental primitives `spherical_mean` calls (`math.cos`,
`math.sin`, `math.atan2`, `math.sqrt`, `math.radians`, `math.degrees`).
The function is parametric in them: the branches under verification
never invoke them. -/
structure TrigOps where
  tcos : ℚ → ℚ
  tsin : ℚ → ℚ
  tatan2 : ℚ → ℚ → ℚ
  tsqrt : ℚ → ℚ
  toRadians : ℚ → ℚ
  toDegrees : ℚ → ℚ

/-- Embedding of `SpheroidService.spherical_mean` on a list of `(lat, lon)` pairs:
empty input returns `None`; a singleton is returned unchanged; otherwise
the points are summed as Cartesian unit vectors, averaged, and converted
back with `atan2`. -/
def spherical_mean (T : TrigOps) (points : List (ℚ × ℚ)) : Option (ℚ × ℚ) :=
  if points = [] then none
  else if points.length = 1 then points.head?
  else
    let sums := points.foldl
      (fun (s : ℚ × ℚ × ℚ) pt =>
        let lat_rad := T.toRadians pt.1
        let lon_rad := T.toRadians pt.2
        (s.1 + T.tcos lat_rad * T.tcos lon_rad,
         s.2.1 + T.tcos lat_rad * T.tsin lon_rad,
         s.2.2 + T.tsin lat_rad))
      (0, 0, 0)
    let n : ℚ := points.length
    let x_avg := sums.1 / n
    let y_avg := sums.2.1 / n
    let z_avg := sums.2.2 / n
    let lon_avg := T.tatan2 y_avg x_avg
    let hyp := T.tsqrt (x_avg * x_avg + y_avg * y_avg)
    let lat_avg := T.tatan2 z_avg hyp
    some (T.toDegrees lat_avg, T.toDegrees lon_avg)

/-! ### Archival statistics (src/workers/tasks_archival.py) -/

/-- The advisory fields used by the ACE computation in
`_generate_archive_artifacts`: issue time (seconds) and optional vmax. -/
structure Advisory where
  issued_at_utc : ℚ
  vmax_kt : Option ℚ
  deriving DecidableEq, Repr

/-- The ACE loop of `_generate_archive_artifacts`: starting from `0.0`,
every advisory whose `vmax_kt` is truthy (present and nonzero) and at
least 34 kt adds `vmax² / 10000`, regardless of advisory spacing. -/
def ace_of (advisories : List Advisory) : ℚ :=
  advisories.foldl
    (fun ace advisory =>
      match advisory.vmax_kt with
      | none => ace
      | some v => if v ≠ 0 ∧ 34 ≤ v then ace + v ^ 2 / 10000 else ace)
    0

/-! ### AP mean longitude normalization (src/services/forecast/ap_mean.py) -/

/-- Python `max` over a nonempty list (0 as the value for the unreached
empty case). -/
def listMax : List ℚ → ℚ
  | [] => 0
  | x :: xs => xs.foldl max x

/-- Python `min` over a nonempty list. -/
def listMin : List ℚ → ℚ
  | [] => 0
  | x :: xs => xs.foldl min x

/-- Embedding of `np.mean`: sum divided by length (0 on the unreached empty case,
by rational convention). -/
def npMean (l : List ℚ) : ℚ := l.sum / l.length

/-- Embedding of `APMeanService._normalize_longitude_mean`: if the longitude span
exceeds 180°, rotate negative longitudes by +360 before averaging and
subtract 360 from the mean when it exceeds 180; otherwise the plain
arithmetic mean. -/
def normalize_longitude_mean (lons : List ℚ) : ℚ :=
  let lon_range := listMax lons - listMin lons
  if lon_range > 180 then
    let adjusted_lons := lons.map (fun lon => if lon < 0 then lon + 360 else lon)
    let mean_lon := npMean adjusted_lons
    if mean_lon > 180 then mean_lon - 360 else mean_lon
  else
    npMean lons

/-- Modelled from the spec (§4.5 step 5), for comparison with the code:
"if the longitude range among members exceeds 180°, rotate longitudes
into [0, 360) before averaging and renormalize back into (-180, 180];
otherwise straight arithmetic mean suffices", with rotation adding 360
to negative values and renormalization subtracting 360 from a mean
above 180, as the claim states. -/
def specMeanLongitude (lons : List ℚ) : ℚ :=
  if listMax lons - listMin lons > 180 then
    let rotated := lons.map (fun lon => if lon < 0 then lon + 360 else lon)
    let m := rotated.sum / rotated.length
    if m > 180 then m - 360 else m
  else
    lons.sum / lons.length

/-! ### A-Deck records and AP filtering (src/services/forecast/adeck_parse.py) -/

/-- One parsed A-Deck forecast record, with the fields the ensemble mean
uses.  `issuance_time` is in hours since an epoch so that
`issuance + timedelta(hours=lead)` is plain addition. -/
structure AdeckRecord where
  model_code : String
  issuance_time : ℚ
  forecast_hour : ℤ
  latitude : Option ℚ
  longitude : Option ℚ
  vmax_kt : Option ℚ
  mslp_hpa : Option ℚ
  deriving DecidableEq, Repr

/-- The model-code list `[f"AP{i:02d}" for i in range(ap_min, ap_max + 1)]`. -/
def apModelCodes (ap_min ap_max : ℕ) : List String :=
  (List.range' ap_min (ap_max + 1 - ap_min)).map
    (fun i => "AP" ++ (if i < 10 then "0" else "") ++ toString i)

/-- Embedding of `AdeckParseService.filter_ap_members` with the default range (1, 30). -/
def filter_ap_members (forecasts : List AdeckRecord) : List AdeckRecord :=
  let ap_models := apModelCodes 1 30
  forecasts.filter (fun f => ap_models.contains f.model_code)

/-! ### AP ensemble mean reduction (src/services/forecast/ap_mean.py) -/

/-- A mean forecast point as returned by `APMeanService._compute_mean_point`
(the always-`None` radii field is omitted). -/
structure MeanPoint where
  issuance_time : ℚ
  valid_at : ℚ
  lead_time_hours : ℤ
  latitude : ℚ
  longitude : ℚ
  vmax_kt : Option ℚ
  mslp_hpa : Option ℚ
  member_count : ℕ
  source_tag : String
  is_final : Bool
  deriving DecidableEq, Repr

/-- Embedding of `APMeanService._compute_mean_point`: `None` on an empty member list or
when no member carries a position; otherwise the member means, with
`valid_at = issuance_time + lead_hour` and `member_count = len(members)`. -/
def compute_mean_point (members : List AdeckRecord) (issuance_time : ℚ) (lead_hour : ℤ) :
    Option MeanPoint :=
  if members = [] then none
  else
    let lats := members.filterMap (fun m => m.latitude)
    let lons := members.filterMap (fun m => m.longitude)
    let vmaxs := members.filterMap (fun m => m.vmax_kt)
    let mslps := members.filterMap (fun m => m.mslp_hpa)
    if lats = [] ∨ lons = [] then none
    else
      some
        { issuance_time := issuance_time
          valid_at := issuance_time + (lead_hour : ℚ)
          lead_time_hours := lead_hour
          latitude := npMean lats
          longitude := normalize_longitude_mean lons
          vmax_kt := if vmaxs = [] then none else some (npMean vmaxs)
          mslp_hpa := if mslps = [] then none else some (npMean mslps)
          member_count := members.length
          source_tag := "adecks_open"
          is_final := true }

/-- Insertion into a sorted list, for `sorted(...)` over lead hours. -/
def insertSorted (x : ℤ) : List ℤ → List ℤ
  | [] => [x]
  | y :: ys => if x ≤ y then x :: y :: ys else y :: insertSorted x ys

/-- Embedding of `sorted(...)` over lead hours (insertion sort). -/
def sortLeads : List ℤ → List ℤ
  | [] => []
  | x :: xs => insertSorted x (sortLeads xs)

/-- Embedding of `APMeanService.compute_mean_forecast`: group by issuance and lead,
keep the most recent issuance, and reduce each lead's member list in
ascending lead order.  Grouping by a `defaultdict` in input order makes
each group the input-order sublist with that issuance and lead. -/
def compute_mean_forecast (ap_forecasts : List AdeckRecord) : List MeanPoint :=
  if ap_forecasts = [] then []
  else
    let latest_issuance := listMax (ap_forecasts.map (fun f => f.issuance_time))
    let lead_hours := sortLeads
      (((ap_forecasts.filter (fun f => decide (f.issuance_time = latest_issuance))).map
        (fun f => f.forecast_hour)).dedup)
    lead_hours.filterMap (fun lead_hour =>
      let members := ap_forecasts.filter
        (fun f => decide (f.issuance_time = latest_issuance ∧ f.forecast_hour = lead_hour))
      compute_mean_point members latest_issuance lead_hour)

/-! ### Zone regeneration task (src/workers/tasks_zones.py) -/

/-- The forecast-point fields the zone task consumes (`valid_at_utc` in
seconds). -/
structure ForecastPointRow where
  valid_at_utc : ℚ
  deriving DecidableEq, Repr

/-- A persisted zone row (geometry abstracted to an identifier). -/
structure ZoneRow where
  zone_type : String
  geom : ℕ
  deriving DecidableEq, Repr

/-- Outcome statuses of `regenerate_storm_zones_task`. -/
inductive TaskStatus where
  | success
  | no_forecast
  deriving DecidableEq, Repr

/-- Embedding of `generate_watch_zones`: filter forecast points to the 24-48 h window,
then build polygons.  The body runs under `try/except Exception`: a
geometry error inside `build_zone_polygons` is caught and the zones
accumulated so far — none, since appending happens after the build —
are returned. -/
def generate_watch_zones (build_zone_polygons : List ForecastPointRow → Except String (List ℕ))
    (now : ℚ) (forecast_points : List ForecastPointRow) : List ZoneRow :=
  let watch_points := forecast_points.filter (fun fp =>
    decide (24 ≤ (fp.valid_at_utc - now) / 3600 ∧ (fp.valid_at_utc - now) / 3600 ≤ 48))
  if watch_points = [] then []
  else
    match build_zone_polygons watch_points with
    | .error _ => []
    | .ok polys => polys.map (fun p => { zone_type := "watch", geom := p })

/-- Embedding of `generate_warning_zones`: same shape with the ≤ 24 h window. -/
def generate_warning_zones (build_zone_polygons : List ForecastPointRow → Except String (List ℕ))
    (now : ℚ) (forecast_points : List ForecastPointRow) : List ZoneRow :=
  let warning_points := forecast_points.filter (fun fp =>
    decide ((fp.valid_at_utc - now) / 3600 ≤ 24))
  if warning_points = [] then []
  else
    match build_zone_polygons warning_points with
    | .error _ => []
    | .ok polys => polys.map (fun p => { zone_type := "warning", geom := p })

/-- Embedding of `regenerate_storm_zones_task`, as a transition on the storm's stored
zone set: with no forecast the store is untouched; otherwise the old
zones are deleted (`Zone.query...delete()`), the watch and warning lists
are generated, and the session is committed, making the new lists the
stored set. -/
def regenerate_storm_zones_task (stored_zones : List ZoneRow)
    (forecast_points : List ForecastPointRow)
    (build_zone_polygons : List ForecastPointRow → Except String (List ℕ))
    (now : ℚ) : List ZoneRow × TaskStatus :=
  if forecast_points = [] then (stored_zones, .no_forecast)
  else
    let watch_zones := generate_watch_zones build_zone_polygons now forecast_points
    let warning_zones := generate_warning_zones build_zone_polygons now forecast_points
    (watch_zones ++ warning_zones, .success)

/-! ### Radii inference (src/services/forecast/radii_inference.py)

The power law `R = a * Vmax ** b + c` takes non-integer float powers, so
this section is modelled over the reals with `Real.rpow`. -/

/-- Quadrants of the wind field. -/
inductive Quadrant where
  | NE
  | SE
  | SW
  | NW
  deriving DecidableEq, Repr

/-- Wind-radius thresholds (34/50/64 kt). -/
inductive Threshold where
  | t34
  | t50
  | t64
  deriving DecidableEq, Repr

/-- The wind speed of a threshold. -/
noncomputable def Threshold.windSpeed : Threshold → ℝ
  | .t34 => 34
  | .t50 => 50
  | .t64 => 64

/-- Coefficients `(a, b, c)` of a radius-intensity curve. -/
structure PowerLawCoeffs where
  a : ℝ
  b : ℝ
  c : ℝ

/-- Embedding of `RadiiInferenceService.BASIN_COEFFICIENTS`, with the `.get(basin,
WP)` default folded in: an unknown basin uses the WP row. -/
noncomputable def BASIN_COEFFICIENTS (basin : String) : Threshold → PowerLawCoeffs :=
  fun t =>
    match basin with
    | "EP" =>
      (match t with
       | .t34 => ⟨0.40, 1.25, 25⟩
       | .t50 => ⟨0.28, 1.35, 12⟩
       | .t64 => ⟨0.18, 1.45, 6⟩)
    | "SH" =>
      (match t with
       | .t34 => ⟨0.42, 1.22, 22⟩
       | .t50 => ⟨0.29, 1.32, 11⟩
       | .t64 => ⟨0.19, 1.42, 5⟩)
    | "IO" =>
      (match t with
       | .t34 => ⟨0.43, 1.23, 23⟩
       | .t50 => ⟨0.29, 1.33, 11⟩
       | .t64 => ⟨0.19, 1.43, 5⟩)
    | "AL" =>
      (match t with
       | .t34 => ⟨0.38, 1.28, 28⟩
       | .t50 => ⟨0.26, 1.38, 14⟩
       | .t64 => ⟨0.17, 1.48, 7⟩)
    | _ =>
      (match t with
       | .t34 => ⟨0.45, 1.2, 20⟩
       | .t50 => ⟨0.30, 1.3, 10⟩
       | .t64 => ⟨0.20, 1.4, 5⟩)

/-- One entry of `base_radii`: `max(a * vmax ** b + c, 0)`. -/
noncomputable def base_radius (coeffs : PowerLawCoeffs) (vmax_kt : ℝ) : ℝ :=
  max (coeffs.a * vmax_kt ^ coeffs.b + coeffs.c) 0

/-- The `base_radii` table: a threshold's entry is present exactly when
`vmax_kt >= threshold`. -/
noncomputable def base_radii_opt (basin : String) (vmax_kt : ℝ) (t : Threshold) : Option ℝ :=
  if t.windSpeed ≤ vmax_kt then some (base_radius (BASIN_COEFFICIENTS basin t) vmax_kt)
  else none

/-- Embedding of `speed_factor = min(forward_speed_kt / 20.0, 1.5)`. -/
noncomputable def speed_factor (forward_speed_kt : ℝ) : ℝ :=
  min (forward_speed_kt / 20) 1.5

/-- The `_apply_asymmetry` quadrant multipliers. -/
noncomputable def quadrant_multiplier (q : Quadrant) (forward_speed_kt : ℝ) : ℝ :=
  match q with
  | .NE => 1 + 0.3 * speed_factor forward_speed_kt
  | .NW => 1 + 0.1 * speed_factor forward_speed_kt
  | .SE => 1 - 0.1 * speed_factor forward_speed_kt
  | .SW => 1 - 0.2 * speed_factor forward_speed_kt

/-- Embedding of `RadiiInferenceService.infer_radii`: `None` below 34 kt; otherwise the
per-quadrant radii table, scaled by the asymmetry multipliers when a
positive forward speed is given (Python truthiness sends a speed of 0 to
the symmetric branch).  The `if not base_radii` early return of the source
is unreachable here because `vmax_kt ≥ 34` keeps the 34-kt entry present. -/
noncomputable def infer_radii (basin : String) (vmax_kt : ℝ) (forward_speed_kt : Option ℝ) :
    Option (Quadrant → Threshold → Option ℝ) :=
  if vmax_kt < 34 then none
  else
    match forward_speed_kt with
    | some s =>
      if 0 < s then
        some (fun q t => (base_radii_opt basin vmax_kt t).map (fun r => r * quadrant_multiplier q s))
      else some (fun _ t => base_radii_opt basin vmax_kt t)
    | none => some (fun _ t => base_radii_opt basin vmax_kt t)

/-! ### CIMSS discovery (src/services/ingest/cimss_discovery.py) -/

/-- An anchor link on the index page (`href` as a character list). -/
structure StormLink where
  href : List Char

/-- The storm record `_fetch_storm_details` builds from a detail page. -/
structure StormInfo where
  storm_id : String
  name : String
  deriving DecidableEq, Repr

/-- The regex `odt(\d{2}[A-Z])\.html` matched at the head of the string:
the captured three-character storm id on success. -/
def matchOdtAt : List Char → Option String
  | 'o' :: 'd' :: 't' :: d1 :: d2 :: u :: '.' :: 'h' :: 't' :: 'm' :: 'l' :: _ =>
    if d1.isDigit && d2.isDigit && u.isUpper then some (String.mk [d1, d2, u]) else none
  | _ => none

/-- Embedding of `re.search` for the same pattern: the leftmost match. -/
def searchOdt : List Char → Option String
  | [] => none
  | c :: rest =>
    match matchOdtAt (c :: rest) with
    | some storm_id => some storm_id
    | none => searchOdt rest

/-- The link test of `_parse_all_storms`: `href.startswith('odt') and
href.endswith('.html')`, then the regex search. -/
def link_odt_id (href : List Char) : Option String :=
  if "odt".toList.isPrefixOf href && ".html".toList.isSuffixOf href then searchOdt href
  else none

/-- The link loop of `_parse_all_storms`: `seen` accumulates every matched
storm id (added before the detail fetch); a link whose id was already seen
is skipped, and a link whose detail fetch returns nothing contributes no
entry but still marks its id seen.  `fetch_details` stands for
`_fetch_storm_details`, which pulls a separate page over the network. -/
def parse_storms_aux (fetch_details : List Char → Option StormInfo) :
    List StormLink → List String → List StormInfo
  | [], _ => []
  | link :: rest, seen =>
    match link_odt_id link.href with
    | none => parse_storms_aux fetch_details rest seen
    | some storm_id =>
      if storm_id ∈ seen then parse_storms_aux fetch_details rest seen
      else
        match fetch_details link.href with
        | some storm_info => storm_info :: parse_storms_aux fetch_details rest (storm_id :: seen)
        | none => parse_storms_aux fetch_details rest (storm_id :: seen)

/-- Embedding of `CIMSSDiscoveryService._parse_all_storms` over the page's links. -/
def parse_all_storms (fetch_details : List Char → Option StormInfo)
    (links : List StormLink) : List StormInfo :=
  parse_storms_aux fetch_details links []

/-! ### Concrete records used in counterexamples and witnesses -/

/-- An AP01 member record (used repeated 31 times in the C5
counterexample). -/
def ap01rec : AdeckRecord :=
  { model_code := "AP01", issuance_time := 0, forecast_hour := 24,
    latitude := some 15, longitude := some 140, vmax_kt := some 50,
    mslp_hpa := some 990 }

/-- A two-member AP01/AP02 input with distinct model codes (C5 witness). -/
def apPairInput : List AdeckRecord :=
  [{ model_code := "AP01", issuance_time := 0, forecast_hour := 24,
     latitude := some 15, longitude := some 140, vmax_kt := some 50,
     mslp_hpa := some 990 },
   { model_code := "AP02", issuance_time := 0, forecast_hour := 24,
     latitude := some 16, longitude := some 141, vmax_kt := some 60,
     mslp_hpa := some 980 }]

/-! ## Theorems -/

/-- C2: the forward-speed correction shifts TOFI by `(1 − speed/15)·3` h,
but the code applies the shift with no clipping, contradicting the spec and
the adjacent `# Max ±3 hours adjustment` comment: a 60-kt storm is shifted
by −9 h, outside `[-3, +3]`. -/
theorem adjust_tofi_unclipped_at_60kt :
    adjust_tofi_for_motion 100 none (some 60) = 91 ∧
    ¬ (-3 ≤ adjust_tofi_for_motion 100 none (some 60) - 100) := by
  constructor
  · norm_num [adjust_tofi_for_motion]
  · norm_num [adjust_tofi_for_motion]

/-- C3: the ACE loop adds `vmax²/10000` for every advisory with
`vmax ≥ 34`, with no 6-hour bucketing: the same constant-50-kt track over
six hours reported hourly (7 advisories) yields 7/4, while reported
6-hourly (2 advisories) it yields 1/2 — contradicting the spec's (and the
code comment's) "per 6-hour period" summation. -/
theorem ace_counts_every_advisory :
    ace_of [{ issued_at_utc := 0, vmax_kt := some 50 },
            { issued_at_utc := 3600, vmax_kt := some 50 },
            { issued_at_utc := 7200, vmax_kt := some 50 },
            { issued_at_utc := 10800, vmax_kt := some 50 },
            { issued_at_utc := 14400, vmax_kt := some 50 },
            { issued_at_utc := 18000, vmax_kt := some 50 },
            { issued_at_utc := 21600, vmax_kt := some 50 }] = 7 / 4 ∧
    ace_of [{ issued_at_utc := 0, vmax_kt := some 50 },
            { issued_at_utc := 21600, vmax_kt := some 50 }] = 1 / 2 ∧
    (7 : ℚ) / 4 ≠ 1 / 2 := by
  refine ⟨?_, ?_, by norm_num⟩ <;> norm_num [ace_of, List.foldl]

/-- C4: zone regeneration is not atomic: with one previously stored
zone, a nonempty forecast, and a geometry backend that raises on every
build, the inner `try/except` blocks swallow the errors, both generators
return empty lists, and the task commits the delete — the run ends with
the old zones gone and no new zones persisted, status `success`. -/
theorem zones_wiped_on_geometry_error :
    regenerate_storm_zones_task [{ zone_type := "watch", geom := 0 }]
      [{ valid_at_utc := 30 * 3600 }] (fun _ => .error "geometry") 0 =
      ([], .success) := by
  norm_num [regenerate_storm_zones_task, generate_watch_zones, generate_warning_zones,
    List.filter_cons, List.filter_nil]

/-- Helper for C7: the threshold split is the pair of filters the spec
describes. -/
theorem split_by_threshold_eq_filters (current_time : ℚ) (tofi_data : List TofiEntry) :
    split_by_threshold tofi_data current_time =
      (tofi_data.filter (fun e => decide ((e.tofi_utc - current_time) / 3600 ≤ 24)),
       tofi_data.filter (fun e => decide (¬ (e.tofi_utc - current_time) / 3600 ≤ 24 ∧
         (e.tofi_utc - current_time) / 3600 ≤ 48))) := by
  induction tofi_data with
  | nil => rfl
  | cons e rest ih =>
    simp only [split_by_threshold, ih, List.filter_cons]
    by_cases h1 : (e.tofi_utc - current_time) / 3600 ≤ 24
    · simp [h1]
    · by_cases h2 : (e.tofi_utc - current_time) / 3600 ≤ 48 <;> simp [h1, h2]

/-- C7: the arrival classification returns `warning` iff
`hours_until ≤ 24`, `watch` iff `24 < hours_until ≤ 48`, and no zone class
iff `hours_until > 48`; the polygon builder's threshold split partitions
entries by the same cutoffs, dropping those beyond 48 h. -/
theorem classify_arrival_window_spec (tofi current_time : ℚ) (tofi_data : List TofiEntry) :
    (classify_arrival_window tofi current_time = .warning ↔
      (tofi - current_time) / 3600 ≤ 24) ∧
    (classify_arrival_window tofi current_time = .watch ↔
      (24 < (tofi - current_time) / 3600 ∧ (tofi - current_time) / 3600 ≤ 48)) ∧
    (classify_arrival_window tofi current_time = .noZone ↔
      48 < (tofi - current_time) / 3600) ∧
    split_by_threshold tofi_data current_time =
      (tofi_data.filter (fun e => decide ((e.tofi_utc - current_time) / 3600 ≤ 24)),
       tofi_data.filter (fun e => decide (¬ (e.tofi_utc - current_time) / 3600 ≤ 24 ∧
         (e.tofi_utc - current_time) / 3600 ≤ 48))) := by
  have hcls : classify_arrival_window tofi current_time =
      (if (tofi - current_time) / 3600 ≤ 24 then ArrivalClass.warning
       else if (tofi - current_time) / 3600 ≤ 48 then ArrivalClass.watch
       else ArrivalClass.noZone) := rfl
  refine ⟨?_, ?_, ?_, split_by_threshold_eq_filters current_time tofi_data⟩ <;>
      rw [hcls] <;> split_ifs with h1 h2 <;> (try push_neg at h1) <;> (try push_neg at h2)
  · exact iff_of_true rfl h1
  · exact iff_of_false (by simp) (by linarith)
  · exact iff_of_false (by simp) (by linarith)
  · exact iff_of_false (by simp) (by rintro ⟨hh1, hh2⟩; linarith)
  · exact iff_of_true rfl ⟨h1, h2⟩
  · exact iff_of_false (by simp) (by rintro ⟨hh1, hh2⟩; linarith)
  · exact iff_of_false (by simp) (by linarith)
  · exact iff_of_false (by simp) (by linarith)
  · exact iff_of_true rfl (by linarith)

/-- Helper for C1: a list bounded above termwise has sum at most
`length * bound`. -/
theorem list_sum_le_length_mul {b : ℚ} :
    ∀ {l : List ℚ}, (∀ x ∈ l, x ≤ b) → l.sum ≤ (l.length : ℚ) * b := by
  intro l
  induction l with
  | nil => intro _; simp
  | cons x xs ih =>
    intro h
    have hx := h x (by simp)
    have hxs := ih (fun y hy => h y (by simp [hy]))
    simp only [List.sum_cons, List.length_cons]
    push_cast
    linarith

/-- Helper for C1: a nonempty list bounded strictly below termwise has sum
strictly above `length * bound`. -/
theorem length_mul_lt_list_sum {a : ℚ} :
    ∀ {l : List ℚ}, l ≠ [] → (∀ x ∈ l, a < x) → (l.length : ℚ) * a < l.sum := by
  intro l
  induction l with
  | nil => intro h; exact absurd rfl h
  | cons x xs ih =>
    intro _ h
    have hx := h x (by simp)
    rcases eq_or_ne xs [] with hxs | hxs
    · subst hxs; simpa using hx
    · have hxs' := ih hxs (fun y hy => h y (by simp [hy]))
      simp only [List.sum_cons, List.length_cons]
      push_cast
      linarith

/-- Helper for C1: a nonempty list bounded strictly above termwise has sum
strictly below `length * bound`. -/
theorem list_sum_lt_length_mul {b : ℚ} :
    ∀ {l : List ℚ}, l ≠ [] → (∀ x ∈ l, x < b) → l.sum < (l.length : ℚ) * b := by
  intro l
  induction l with
  | nil => intro h; exact absurd rfl h
  | cons x xs ih =>
    intro _ h
    have hx := h x (by simp)
    rcases eq_or_ne xs [] with hxs | hxs
    · subst hxs; simpa using hx
    · have hxs' := ih hxs (fun y hy => h y (by simp [hy]))
      simp only [List.sum_cons, List.length_cons]
      push_cast
      linarith

/-- Helper for C1: a list bounded below termwise has sum at least
`length * bound`. -/
theorem length_mul_le_list_sum {a : ℚ} :
    ∀ {l : List ℚ}, (∀ x ∈ l, a ≤ x) → (l.length : ℚ) * a ≤ l.sum := by
  intro l
  induction l with
  | nil => intro _; simp
  | cons x xs ih =>
    intro h
    have hx := h x (by simp)
    have hxs := ih (fun y hy => h y (by simp [hy]))
    simp only [List.sum_cons, List.length_cons]
    push_cast
    linarith

/-- Helper for C1: the length of a nonempty rational list is positive. -/
theorem length_pos_q {l : List ℚ} (h : l ≠ []) : (0 : ℚ) < (l.length : ℚ) := by
  have := List.length_pos.mpr h
  exact_mod_cast this

/-- Helper for C1: bounds on `npMean` from termwise bounds, strict below
and nonstrict above. -/
theorem npMean_bounds {a b : ℚ} {l : List ℚ} (hne : l ≠ [])
    (h : ∀ x ∈ l, a < x ∧ x ≤ b) : a < npMean l ∧ npMean l ≤ b := by
  have hlen := length_pos_q hne
  constructor
  · rw [npMean, lt_div_iff₀ hlen]
    have := length_mul_lt_list_sum hne (fun x hx => (h x hx).1)
    linarith
  · rw [npMean, div_le_iff₀ hlen]
    have := list_sum_le_length_mul (fun x hx => (h x hx).2)
    linarith

/-- Helper for C1: bounds on `npMean`, nonstrict below and strict above. -/
theorem npMean_bounds' {a b : ℚ} {l : List ℚ} (hne : l ≠ [])
    (h : ∀ x ∈ l, a ≤ x ∧ x < b) : a ≤ npMean l ∧ npMean l < b := by
  have hlen := length_pos_q hne
  constructor
  · rw [npMean, le_div_iff₀ hlen]
    have := length_mul_le_list_sum (fun x hx => (h x hx).1)
    linarith
  · rw [npMean, div_lt_iff₀ hlen]
    have := list_sum_lt_length_mul hne (fun x hx => (h x hx).2)
    linarith

/-- C1: the ensemble-mean longitude agrees with the spec's
great-circle-aware description: above a 180° span, longitudes are rotated
into `[0, 360)` (adding 360 to negative values) and averaged, and the mean
is renormalized into `(-180, 180]` by subtracting 360 when it exceeds 180;
otherwise the plain arithmetic mean is returned.  For longitudes in
`(-180, 180]` the rotated values lie in `[0, 360)` and the result lies in
`(-180, 180]`. -/
theorem normalize_longitude_mean_spec (lons : List ℚ) (hne : lons ≠ [])
    (hdom : ∀ x ∈ lons, -180 < x ∧ x ≤ 180) :
    normalize_longitude_mean lons = specMeanLongitude lons ∧
    (∀ y ∈ lons.map (fun lon => if lon < 0 then lon + 360 else lon), 0 ≤ y ∧ y < 360) ∧
    (-180 < normalize_longitude_mean lons ∧ normalize_longitude_mean lons ≤ 180) := by
  have hrot : ∀ y ∈ lons.map (fun lon => if lon < 0 then lon + 360 else lon), 0 ≤ y ∧ y < 360 := by
    intro y hy
    rcases List.mem_map.mp hy with ⟨x, hx, rfl⟩
    rcases hdom x hx with ⟨hx1, hx2⟩
    by_cases hneg : x < 0
    · refine ⟨?_, ?_⟩ <;> simp only [if_pos hneg] <;> linarith
    · push_neg at hneg
      refine ⟨?_, ?_⟩ <;> simp only [if_neg (not_lt.mpr hneg)] <;> linarith
  refine ⟨rfl, hrot, ?_⟩
  unfold normalize_longitude_mean
  by_cases hr : listMax lons - listMin lons > 180
  · simp only [hr, if_true]
    have hmapne : lons.map (fun lon => if lon < 0 then lon + 360 else lon) ≠ [] := by
      simpa using hne
    have hb := npMean_bounds' hmapne hrot
    by_cases hm : npMean (lons.map (fun lon => if lon < 0 then lon + 360 else lon)) > 180
    · simp only [hm, if_true]
      constructor <;> linarith [hb.1, hb.2]
    · simp only [hm, if_false]
      push_neg at hm
      constructor <;> linarith [hb.1]
  · simp only [hr, if_false]
    exact npMean_bounds hne hdom

/-- Witness for C1 at the antimeridian scenario S4: members at 179.5 and
−179.5 give a mean longitude of exactly 180, not ≈ 0. -/
theorem normalize_longitude_mean_spec_witness :
    (([(179.5 : ℚ), -179.5] ≠ []) ∧ (∀ x ∈ [(179.5 : ℚ), -179.5], -180 < x ∧ x ≤ 180)) ∧
    (normalize_longitude_mean [(179.5 : ℚ), -179.5] = specMeanLongitude [(179.5 : ℚ), -179.5] ∧
     (∀ y ∈ [(179.5 : ℚ), -179.5].map (fun lon => if lon < 0 then lon + 360 else lon),
        0 ≤ y ∧ y < 360) ∧
     (-180 < normalize_longitude_mean [(179.5 : ℚ), -179.5] ∧
      normalize_longitude_mean [(179.5 : ℚ), -179.5] ≤ 180)) ∧
    normalize_longitude_mean [(179.5 : ℚ), -179.5] = 180 := by
  refine ⟨⟨by simp, by norm_num⟩,
    normalize_longitude_mean_spec _ (by simp) (by norm_num), ?_⟩
  norm_num [normalize_longitude_mean, listMax, listMin, npMean, List.foldl]

/-- C9: `spherical_mean` returns `None` on the empty list and returns a
singleton's point unchanged, for every choice of the trigonometric
primitives — i.e. without any trigonometric round-trip. -/
theorem spherical_mean_empty_and_singleton (T : TrigOps) (p : ℚ × ℚ) :
    spherical_mean T [] = none ∧ spherical_mean T [p] = some p := by
  constructor
  · rfl
  · simp [spherical_mean]

/-- Helper for C5: folding `max` over copies of the start value is the
start value. -/
theorem foldl_max_replicate (x : ℚ) : ∀ n, (List.replicate n x).foldl max x = x
  | 0 => rfl
  | n + 1 => by
    rw [List.replicate_succ, List.foldl_cons, max_self]
    exact foldl_max_replicate x n

/-- Helper for C5: folding `min` over copies of the start value is the
start value. -/
theorem foldl_min_replicate (x : ℚ) : ∀ n, (List.replicate n x).foldl min x = x
  | 0 => rfl
  | n + 1 => by
    rw [List.replicate_succ, List.foldl_cons, min_self]
    exact foldl_min_replicate x n

/-- Helper for C5: `listMax` of a nonempty constant list. -/
theorem listMax_replicate (n : ℕ) (x : ℚ) : listMax (List.replicate (n + 1) x) = x := by
  rw [List.replicate_succ]
  exact foldl_max_replicate x n

/-- Helper for C5: `listMin` of a nonempty constant list. -/
theorem listMin_replicate (n : ℕ) (x : ℚ) : listMin (List.replicate (n + 1) x) = x := by
  rw [List.replicate_succ]
  exact foldl_min_replicate x n

/-- Helper for C5: `dedup` of a nonempty constant list. -/
theorem dedup_replicate (c : ℤ) : ∀ n, (List.replicate (n + 1) c).dedup = [c]
  | 0 => by simp
  | n + 1 => by
    rw [List.replicate_succ, List.dedup_cons_of_mem (by simp [List.mem_replicate])]
    exact dedup_replicate c n

/-- Helper for C5: the mean of a nonempty constant list. -/
theorem npMean_replicate (n : ℕ) (x : ℚ) : npMean (List.replicate (n + 1) x) = x := by
  rw [npMean, List.sum_replicate, List.length_replicate, nsmul_eq_mul]
  push_cast
  exact mul_div_cancel_left₀ x (by positivity)

/-- Helper for C5: the normalized mean longitude of a nonempty constant
list. -/
theorem normalize_longitude_mean_replicate (n : ℕ) (x : ℚ) :
    normalize_longitude_mean (List.replicate (n + 1) x) = x := by
  unfold normalize_longitude_mean
  rw [listMax_replicate, listMin_replicate]
  simp [npMean_replicate]

/-- Helper for C5: the ensemble reduction of `n + 1` copies of one member
is a single mean point carrying the member's values with
`member_count = n + 1`: the reduction counts records, not distinct model
codes. -/
theorem compute_mean_forecast_replicate (m : AdeckRecord) (n : ℕ) (la lo v p : ℚ)
    (hla : m.latitude = some la) (hlo : m.longitude = some lo)
    (hv : m.vmax_kt = some v) (hp : m.mslp_hpa = some p) :
    compute_mean_forecast (List.replicate (n + 1) m) =
      [{ issuance_time := m.issuance_time
         valid_at := m.issuance_time + (m.forecast_hour : ℚ)
         lead_time_hours := m.forecast_hour
         latitude := la
         longitude := lo
         vmax_kt := some v
         mslp_hpa := some p
         member_count := n + 1
         source_tag := "adecks_open"
         is_final := true }] := by
  have hne : List.replicate (n + 1) m ≠ [] := by simp
  have hmap : (List.replicate (n + 1) m).map (fun f => f.issuance_time) =
      List.replicate (n + 1) m.issuance_time := List.map_replicate
  have hfilter1 : (List.replicate (n + 1) m).filter
      (fun f => decide (f.issuance_time = m.issuance_time)) = List.replicate (n + 1) m :=
    List.filter_replicate_of_pos (by simp)
  have hfilter2 : (List.replicate (n + 1) m).filter
      (fun f => decide (f.issuance_time = m.issuance_time ∧ f.forecast_hour = m.forecast_hour)) =
      List.replicate (n + 1) m :=
    List.filter_replicate_of_pos (by simp)
  have hlats : (List.replicate (n + 1) m).filterMap (fun f => f.latitude) =
      List.replicate (n + 1) la := List.filterMap_replicate_of_some hla
  have hlons : (List.replicate (n + 1) m).filterMap (fun f => f.longitude) =
      List.replicate (n + 1) lo := List.filterMap_replicate_of_some hlo
  have hvs : (List.replicate (n + 1) m).filterMap (fun f => f.vmax_kt) =
      List.replicate (n + 1) v := List.filterMap_replicate_of_some hv
  have hps : (List.replicate (n + 1) m).filterMap (fun f => f.mslp_hpa) =
      List.replicate (n + 1) p := List.filterMap_replicate_of_some hp
  have hpoint : compute_mean_point (List.replicate (n + 1) m) m.issuance_time m.forecast_hour =
      some { issuance_time := m.issuance_time
             valid_at := m.issuance_time + (m.forecast_hour : ℚ)
             lead_time_hours := m.forecast_hour
             latitude := la
             longitude := lo
             vmax_kt := some v
             mslp_hpa := some p
             member_count := n + 1
             source_tag := "adecks_open"
             is_final := true } := by
    unfold compute_mean_point
    rw [if_neg hne]
    dsimp only
    rw [hlats, hlons, hvs, hps]
    rw [if_neg (by simp)]
    simp [npMean_replicate, normalize_longitude_mean_replicate]
  unfold compute_mean_forecast
  rw [if_neg hne]
  dsimp only
  rw [hmap, listMax_replicate, hfilter1, List.map_replicate, dedup_replicate]
  simp only [sortLeads, insertSorted, List.filterMap_cons, List.filterMap_nil]
  rw [hfilter2, hpoint]

/-- C5 counterexample: the pipeline performs no per-model
deduplication: 31 copies of the same AP01 record at one lead yield a mean
point with `member_count = 31 > 30`, falsifying `member_count ≤ 30` for
inputs that repeat a model code at the same lead time. -/
theorem member_count_exceeds_30 :
    ∃ pt ∈ compute_mean_forecast (filter_ap_members (List.replicate 31 ap01rec)),
      30 < pt.member_count := by
  have hcontains : (apModelCodes 1 30).contains ap01rec.model_code = true := by decide
  have hfilt : filter_ap_members (List.replicate 31 ap01rec) =
      List.replicate 31 ap01rec := by
    unfold filter_ap_members
    exact List.filter_replicate_of_pos hcontains
  have h := compute_mean_forecast_replicate ap01rec 30 15 140 50 990 rfl rfl rfl rfl
  norm_num at h
  rw [hfilt, h]
  refine ⟨_, List.mem_singleton_self _, ?_⟩
  norm_num

/-- C5 amended: every produced mean point satisfies
`valid_at = issuance_time + lead_hours` exactly and `member_count ≥ 1`,
unconditionally — also for inputs that repeat a model code; the further
bound `member_count ≤ 30` holds under the additional hypothesis that no
model code repeats within a `(issuance, lead)` group — with repeats,
`member_count` is the raw record count and can exceed 30 (previous
theorem). -/
theorem mean_point_invariants (fs : List AdeckRecord) :
    ∀ pt ∈ compute_mean_forecast (filter_ap_members fs),
      pt.valid_at = pt.issuance_time + (pt.lead_time_hours : ℚ) ∧
      1 ≤ pt.member_count ∧
      ((∀ iss : ℚ, ∀ ld : ℤ,
        (((filter_ap_members fs).filter
          (fun f => decide (f.issuance_time = iss ∧ f.forecast_hour = ld))).map
          (fun f => f.model_code)).Nodup) →
        pt.member_count ≤ 30) := by
  intro pt hpt
  unfold compute_mean_forecast at hpt
  by_cases hemp : filter_ap_members fs = []
  · rw [if_pos hemp] at hpt
    simp at hpt
  · rw [if_neg hemp] at hpt
    obtain ⟨ld, _, hsome⟩ := List.mem_filterMap.mp hpt
    revert hsome
    generalize hmem : (filter_ap_members fs).filter
      (fun f => decide (f.issuance_time =
        listMax ((filter_ap_members fs).map fun f => f.issuance_time) ∧
        f.forecast_hour = ld)) = members
    intro hsome
    unfold compute_mean_point at hsome
    by_cases hm : members = []
    · rw [if_pos hm] at hsome
      cases hsome
    · rw [if_neg hm] at hsome
      dsimp only at hsome
      by_cases hl : members.filterMap (fun m => m.latitude) = [] ∨
          members.filterMap (fun m => m.longitude) = []
      · rw [if_pos hl] at hsome
        cases hsome
      · rw [if_neg hl] at hsome
        have hpt' := Option.some.inj hsome
        subst hpt'
        refine ⟨rfl, ?_, ?_⟩
        · exact List.length_pos.mpr hm
        · intro hnodup
          have hnd : (members.map (fun f => f.model_code)).Nodup := by
            rw [← hmem]
            exact hnodup _ ld
          have hsubfs : members ⊆ filter_ap_members fs := by
            rw [← hmem]
            exact (List.filter_sublist _).subset
          have hcodes : ∀ c ∈ members.map (fun f => f.model_code), c ∈ apModelCodes 1 30 := by
            intro c hc
            obtain ⟨f, hfm, rfl⟩ := List.mem_map.mp hc
            have hff := hsubfs hfm
            unfold filter_ap_members at hff
            have := List.of_mem_filter hff
            exact List.elem_iff.mp this
          have hsubfin : (members.map (fun f => f.model_code)).toFinset ⊆
              (apModelCodes 1 30).toFinset := by
            intro c hc
            rw [List.mem_toFinset] at hc ⊢
            exact hcodes c hc
          have hcard := Finset.card_le_card hsubfin
          rw [List.toFinset_card_of_nodup hnd] at hcard
          have hlen30 : (apModelCodes 1 30).length = 30 := by decide
          have := le_trans hcard (List.toFinset_card_le (apModelCodes 1 30))
          rw [List.length_map] at this
          show members.length ≤ 30
          omega

/-- Witness for the amended C5 at a two-member AP01/AP02 input: the
unconditional clauses hold for every produced point, and the no-repeat
side condition of the `≤ 30` clause is discharged there as well. -/
theorem mean_point_invariants_witness :
    (∀ iss : ℚ, ∀ ld : ℤ,
      (((filter_ap_members apPairInput).filter
        (fun f => decide (f.issuance_time = iss ∧ f.forecast_hour = ld))).map
        (fun f => f.model_code)).Nodup) ∧
    (∀ pt ∈ compute_mean_forecast (filter_ap_members apPairInput),
      pt.valid_at = pt.issuance_time + (pt.lead_time_hours : ℚ) ∧
      1 ≤ pt.member_count ∧ pt.member_count ≤ 30) := by
  have hnd : ∀ iss : ℚ, ∀ ld : ℤ,
      (((filter_ap_members apPairInput).filter
        (fun f => decide (f.issuance_time = iss ∧ f.forecast_hour = ld))).map
        (fun f => f.model_code)).Nodup := by
    intro iss ld
    refine List.Nodup.sublist ((List.filter_sublist _).map _) ?_
    show ((filter_ap_members apPairInput).map (fun f => f.model_code)).Nodup
    decide
  refine ⟨hnd, ?_⟩
  intro pt hpt
  obtain ⟨h1, h2, h3⟩ := mean_point_invariants apPairInput pt hpt
  exact ⟨h1, h2, h3 hnd⟩

/-- C8: the identity Mean of a singleton ensemble is the member itself.  A single member with all of latitude,
longitude, vmax and mslp present reduces to exactly one mean point
carrying those same values, with `member_count = 1`. -/
theorem compute_mean_forecast_singleton (m : AdeckRecord) (la lo v p : ℚ)
    (hla : m.latitude = some la) (hlo : m.longitude = some lo)
    (hv : m.vmax_kt = some v) (hp : m.mslp_hpa = some p) :
    compute_mean_forecast [m] =
      [{ issuance_time := m.issuance_time
         valid_at := m.issuance_time + (m.forecast_hour : ℚ)
         lead_time_hours := m.forecast_hour
         latitude := la
         longitude := lo
         vmax_kt := some v
         mslp_hpa := some p
         member_count := 1
         source_tag := "adecks_open"
         is_final := true }] := by
  have hmean : ∀ x : ℚ, npMean [x] = x := by
    intro x; simp [npMean]
  have hnorm : ∀ x : ℚ, normalize_longitude_mean [x] = x := by
    intro x
    unfold normalize_longitude_mean
    simp [listMax, listMin, hmean]
  simp [compute_mean_forecast, compute_mean_point, listMax, sortLeads, insertSorted,
    hla, hlo, hv, hp, hmean, hnorm]

/-- Witness for C8 at a concrete AP01 member. -/
theorem compute_mean_forecast_singleton_witness :
    (let m : AdeckRecord :=
      { model_code := "AP01", issuance_time := 12, forecast_hour := 24,
        latitude := some 15, longitude := some (-128),
        vmax_kt := some 65, mslp_hpa := some 950 }
     compute_mean_forecast [m] =
      [{ issuance_time := 12
         valid_at := 36
         lead_time_hours := 24
         latitude := 15
         longitude := -128
         vmax_kt := some 65
         mslp_hpa := some 950
         member_count := 1
         source_tag := "adecks_open"
         is_final := true }]) := by
  have h := compute_mean_forecast_singleton
    { model_code := "AP01", issuance_time := 12, forecast_hour := 24,
      latitude := some 15, longitude := some (-128),
      vmax_kt := some 65, mslp_hpa := some 950 }
    15 (-128) 65 950 rfl rfl rfl rfl
  norm_num at h
  exact h

/-- Helper for C10: when every fetched detail record reports the storm id
matched from its link, the produced storm ids are distinct and avoid the
`seen` accumulator. -/
theorem parse_storms_aux_nodup (fetch_details : List Char → Option StormInfo)
    (hconsist : ∀ href storm_id info, link_odt_id href = some storm_id →
      fetch_details href = some info → info.storm_id = storm_id) :
    ∀ (links : List StormLink) (seen : List String),
      ((parse_storms_aux fetch_details links seen).map (fun s => s.storm_id)).Nodup ∧
      ∀ s ∈ (parse_storms_aux fetch_details links seen).map (fun s => s.storm_id), s ∉ seen := by
  intro links
  induction links with
  | nil =>
    intro seen
    constructor
    · simp [parse_storms_aux]
    · simp [parse_storms_aux]
  | cons link rest ih =>
    intro seen
    cases hid : link_odt_id link.href with
    | none =>
      have hred : parse_storms_aux fetch_details (link :: rest) seen =
          parse_storms_aux fetch_details rest seen := by
        simp [parse_storms_aux, hid]
      rw [hred]
      exact ih seen
    | some storm_id =>
      by_cases hseen : storm_id ∈ seen
      · have hred : parse_storms_aux fetch_details (link :: rest) seen =
            parse_storms_aux fetch_details rest seen := by
          simp [parse_storms_aux, hid, hseen]
        rw [hred]
        exact ih seen
      · cases hfetch : fetch_details link.href with
        | none =>
          have hred : parse_storms_aux fetch_details (link :: rest) seen =
              parse_storms_aux fetch_details rest (storm_id :: seen) := by
            simp [parse_storms_aux, hid, hseen, hfetch]
          rw [hred]
          have h := ih (storm_id :: seen)
          exact ⟨h.1, fun s hs hcon => h.2 s hs (List.mem_cons_of_mem _ hcon)⟩
        | some info =>
          have hred : parse_storms_aux fetch_details (link :: rest) seen =
              info :: parse_storms_aux fetch_details rest (storm_id :: seen) := by
            simp [parse_storms_aux, hid, hseen, hfetch]
          rw [hred]
          have h := ih (storm_id :: seen)
          have hinfo : info.storm_id = storm_id :=
            hconsist link.href storm_id info hid hfetch
          rw [List.map_cons, hinfo]
          constructor
          · rw [List.nodup_cons]
            exact ⟨fun hcon => h.2 _ hcon (List.mem_cons_self _ _), h.1⟩
          · intro s hs
            rcases List.mem_cons.mp hs with rfl | hs'
            · exact hseen
            · exact fun hcon => h.2 s hs' (List.mem_cons_of_mem _ hcon)

/-- Helper for C10: a trailing link whose matched storm id was already
marked seen — or is matched by some earlier link — contributes nothing. -/
theorem parse_storms_aux_skip_dup (fetch_details : List Char → Option StormInfo) :
    ∀ (links : List StormLink) (seen : List String) (l : StormLink) (storm_id : String),
      link_odt_id l.href = some storm_id →
      (storm_id ∈ seen ∨ ∃ x ∈ links, link_odt_id x.href = some storm_id) →
      parse_storms_aux fetch_details (links ++ [l]) seen =
        parse_storms_aux fetch_details links seen := by
  intro links
  induction links with
  | nil =>
    intro seen l storm_id hl hdup
    rcases hdup with hseen | ⟨x, hx, _⟩
    · simp [parse_storms_aux, hl, hseen]
    · cases hx
  | cons link rest ih =>
    intro seen l storm_id hl hdup
    cases hid : link_odt_id link.href with
    | none =>
      have hdup' : storm_id ∈ seen ∨ ∃ x ∈ rest, link_odt_id x.href = some storm_id := by
        rcases hdup with hseen | ⟨x, hx, hxid⟩
        · exact Or.inl hseen
        · rcases List.mem_cons.mp hx with rfl | hx'
          · rw [hid] at hxid; cases hxid
          · exact Or.inr ⟨x, hx', hxid⟩
      have hred1 : parse_storms_aux fetch_details ((link :: rest) ++ [l]) seen =
          parse_storms_aux fetch_details (rest ++ [l]) seen := by
        simp [parse_storms_aux, hid]
      have hred2 : parse_storms_aux fetch_details (link :: rest) seen =
          parse_storms_aux fetch_details rest seen := by
        simp [parse_storms_aux, hid]
      rw [hred1, hred2]
      exact ih seen l storm_id hl hdup'
    | some id' =>
      by_cases hseen : id' ∈ seen
      · have hdup' : storm_id ∈ seen ∨ ∃ x ∈ rest, link_odt_id x.href = some storm_id := by
          rcases hdup with hs | ⟨x, hx, hxid⟩
          · exact Or.inl hs
          · rcases List.mem_cons.mp hx with rfl | hx'
            · rw [hid] at hxid
              cases hxid
              exact Or.inl hseen
            · exact Or.inr ⟨x, hx', hxid⟩
        have hred1 : parse_storms_aux fetch_details ((link :: rest) ++ [l]) seen =
            parse_storms_aux fetch_details (rest ++ [l]) seen := by
          simp [parse_storms_aux, hid, hseen]
        have hred2 : parse_storms_aux fetch_details (link :: rest) seen =
            parse_storms_aux fetch_details rest seen := by
          simp [parse_storms_aux, hid, hseen]
        rw [hred1, hred2]
        exact ih seen l storm_id hl hdup'
      · have hdup' : storm_id ∈ id' :: seen ∨
            ∃ x ∈ rest, link_odt_id x.href = some storm_id := by
          rcases hdup with hs | ⟨x, hx, hxid⟩
          · exact Or.inl (List.mem_cons_of_mem _ hs)
          · rcases List.mem_cons.mp hx with rfl | hx'
            · rw [hid] at hxid
              cases hxid
              exact Or.inl (List.mem_cons_self _ _)
            · exact Or.inr ⟨x, hx', hxid⟩
        cases hfetch : fetch_details link.href with
        | none =>
          have hred1 : parse_storms_aux fetch_details ((link :: rest) ++ [l]) seen =
              parse_storms_aux fetch_details (rest ++ [l]) (id' :: seen) := by
            simp [parse_storms_aux, hid, hseen, hfetch]
          have hred2 : parse_storms_aux fetch_details (link :: rest) seen =
              parse_storms_aux fetch_details rest (id' :: seen) := by
            simp [parse_storms_aux, hid, hseen, hfetch]
          rw [hred1, hred2]
          exact ih (id' :: seen) l storm_id hl hdup'
        | some info =>
          have hred1 : parse_storms_aux fetch_details ((link :: rest) ++ [l]) seen =
              info :: parse_storms_aux fetch_details (rest ++ [l]) (id' :: seen) := by
            simp [parse_storms_aux, hid, hseen, hfetch]
          have hred2 : parse_storms_aux fetch_details (link :: rest) seen =
              info :: parse_storms_aux fetch_details rest (id' :: seen) := by
            simp [parse_storms_aux, hid, hseen, hfetch]
          rw [hred1, hred2]
          rw [ih (id' :: seen) l storm_id hl hdup']

/-- C10: when each detail page reports the same storm id as its link
(the documented `odtNNB.html`/`NNB-list.txt` pairing), discovery yields
pairwise-distinct storm ids, and a link repeating an already-seen odt
detail page contributes no further entry. -/
theorem parse_all_storms_distinct (fetch_details : List Char → Option StormInfo)
    (links : List StormLink) (l : StormLink) (storm_id : String)
    (hconsist : ∀ href storm_id info, link_odt_id href = some storm_id →
      fetch_details href = some info → info.storm_id = storm_id)
    (hl : link_odt_id l.href = some storm_id)
    (hdup : ∃ x ∈ links, link_odt_id x.href = some storm_id) :
    ((parse_all_storms fetch_details links).map (fun s => s.storm_id)).Nodup ∧
    parse_all_storms fetch_details (links ++ [l]) = parse_all_storms fetch_details links := by
  constructor
  · exact (parse_storms_aux_nodup fetch_details hconsist links []).1
  · exact parse_storms_aux_skip_dup fetch_details links [] l storm_id hl (Or.inr hdup)

/-- Witness for C10: an index page linking `odt30W.html` twice, against a
detail oracle that reports the id matched from the link. -/
theorem parse_all_storms_distinct_witness :
    (link_odt_id (⟨"odt30W.html".toList⟩ : StormLink).href = some "30W") ∧
    (∃ x ∈ [(⟨"odt30W.html".toList⟩ : StormLink), ⟨"odt30W.html".toList⟩],
       link_odt_id x.href = some "30W") ∧
    ((parse_all_storms
        (fun href => (link_odt_id href).map
          (fun i => ({ storm_id := i, name := "STORM" } : StormInfo)))
        [⟨"odt30W.html".toList⟩, ⟨"odt30W.html".toList⟩]).map (fun s => s.storm_id)).Nodup ∧
    parse_all_storms
        (fun href => (link_odt_id href).map
          (fun i => ({ storm_id := i, name := "STORM" } : StormInfo)))
        ([(⟨"odt30W.html".toList⟩ : StormLink), ⟨"odt30W.html".toList⟩] ++
          [⟨"odt30W.html".toList⟩]) =
      parse_all_storms
        (fun href => (link_odt_id href).map
          (fun i => ({ storm_id := i, name := "STORM" } : StormInfo)))
        [⟨"odt30W.html".toList⟩, ⟨"odt30W.html".toList⟩] := by
  have hl : link_odt_id (String.toList "odt30W.html") = some "30W" := by decide
  have hcons : ∀ href storm_id info, link_odt_id href = some storm_id →
      ((fun href => (link_odt_id href).map
        (fun i => ({ storm_id := i, name := "STORM" } : StormInfo))) href) = some info →
      info.storm_id = storm_id := by
    intro href storm_id info h1 h2
    simp only at h2
    rw [h1] at h2
    rw [(Option.some.inj h2.symm : info = _)]
  have hdup : ∃ x ∈ [(⟨"odt30W.html".toList⟩ : StormLink), ⟨"odt30W.html".toList⟩],
      link_odt_id x.href = some "30W" :=
    ⟨⟨"odt30W.html".toList⟩, List.mem_cons_self _ _, hl⟩
  have h := parse_all_storms_distinct _ _ ⟨"odt30W.html".toList⟩ "30W" hcons hl hdup
  exact ⟨hl, hdup, h.1, h.2⟩

/-- Helper for C6: real powers of 1024 with a one-decimal exponent are
powers of 2. -/
theorem rpow_1024 {y : ℝ} {k : ℕ} (h : 10 * y = (k : ℝ)) :
    (1024 : ℝ) ^ y = (2 : ℝ) ^ k := by
  have h1 : (1024 : ℝ) = (2 : ℝ) ^ ((10 : ℕ) : ℝ) := by
    rw [Real.rpow_natCast]
    norm_num
  rw [h1, ← Real.rpow_natCast (2 : ℝ) k, ← h,
    ← Real.rpow_mul (by norm_num : (0 : ℝ) ≤ 2)]
  norm_num

/-- Helper for C6: the basin coefficient rows used at 1024 kt. -/
theorem wp_coeffs_34 : BASIN_COEFFICIENTS "WP" Threshold.t34 = ⟨0.45, 1.2, 20⟩ := rfl

/-- Helper for C6: the WP 50-kt coefficient row. -/
theorem wp_coeffs_50 : BASIN_COEFFICIENTS "WP" Threshold.t50 = ⟨0.30, 1.3, 10⟩ := rfl

/-- C6 counterexample: the per-basin power laws cross for strong
storms: in basin WP at `vmax = 1024` kt (where `1024^1.2 = 4096` and
`1024^1.3 = 8192` exactly), the inferred NE-quadrant radii satisfy
`r34 < r50`, refuting the claimed nesting `r50 ≤ r34` for every
`vmax ≥ 64`. -/
theorem radii_nesting_fails_at_1024 :
    (64 : ℝ) ≤ 1024 ∧
    ∃ f, infer_radii "WP" 1024 none = some f ∧
      ∃ r34 r50, f Quadrant.NE Threshold.t34 = some r34 ∧
        f Quadrant.NE Threshold.t50 = some r50 ∧ r34 < r50 := by
  refine ⟨by norm_num, (fun _ t => base_radii_opt "WP" 1024 t), ?_, ?_⟩
  · unfold infer_radii
    rw [if_neg (by norm_num)]
  · have h34 : base_radii_opt "WP" 1024 Threshold.t34 =
        some (max (0.45 * (1024 : ℝ) ^ (1.2 : ℝ) + 20) 0) := by
      unfold base_radii_opt base_radius
      rw [if_pos (by norm_num [Threshold.windSpeed]), wp_coeffs_34]
    have h50 : base_radii_opt "WP" 1024 Threshold.t50 =
        some (max (0.30 * (1024 : ℝ) ^ (1.3 : ℝ) + 10) 0) := by
      unfold base_radii_opt base_radius
      rw [if_pos (by norm_num [Threshold.windSpeed]), wp_coeffs_50]
    have he34 : (1024 : ℝ) ^ (1.2 : ℝ) = (2 : ℝ) ^ (12 : ℕ) := rpow_1024 (by norm_num)
    have he50 : (1024 : ℝ) ^ (1.3 : ℝ) = (2 : ℝ) ^ (13 : ℕ) := rpow_1024 (by norm_num)
    refine ⟨_, _, h34, h50, ?_⟩
    rw [he34, he50]
    rw [max_eq_left (by norm_num), max_eq_left (by norm_num)]
    norm_num

/-- Helper for C6: the asymmetry multipliers are strictly positive for a
positive forward speed. -/
theorem quadrant_multiplier_pos (q : Quadrant) {s : ℝ} (hs : 0 < s) :
    0 < quadrant_multiplier q s := by
  have h1 : 0 < speed_factor s := lt_min (by positivity) (by norm_num)
  have h2 : speed_factor s ≤ 1.5 := min_le_right _ _
  cases q <;> simp only [quadrant_multiplier] <;> nlinarith

/-- C6 amended: for every basin, every `vmax ≥ 64`, and every
forward speed, all three thresholds are present in every quadrant, and the
quadrant nesting `r64 ≤ r50 ≤ r34` holds if and only if the symmetric base
power-law radii nest at that intensity — the asymmetry multiplier is
positive and preserves order both ways.  The base nesting itself fails for
sufficiently strong storms (previous theorem), so the unconditional claim
is false. -/
theorem radii_nesting_iff_base (basin : String) (vmax_kt : ℝ)
    (forward_speed_kt : Option ℝ) (q : Quadrant) (h64 : 64 ≤ vmax_kt) :
    ∀ f, infer_radii basin vmax_kt forward_speed_kt = some f →
      ∃ r34 r50 r64, f q Threshold.t34 = some r34 ∧ f q Threshold.t50 = some r50 ∧
        f q Threshold.t64 = some r64 ∧
        ((r64 ≤ r50 ∧ r50 ≤ r34) ↔
          (base_radius (BASIN_COEFFICIENTS basin Threshold.t64) vmax_kt ≤
             base_radius (BASIN_COEFFICIENTS basin Threshold.t50) vmax_kt ∧
           base_radius (BASIN_COEFFICIENTS basin Threshold.t50) vmax_kt ≤
             base_radius (BASIN_COEFFICIENTS basin Threshold.t34) vmax_kt)) := by
  intro f hf
  have hnot : ¬ vmax_kt < 34 := by linarith
  have hb : ∀ t : Threshold, base_radii_opt basin vmax_kt t =
      some (base_radius (BASIN_COEFFICIENTS basin t) vmax_kt) := by
    intro t
    unfold base_radii_opt
    rw [if_pos]
    cases t <;> simp only [Threshold.windSpeed] <;> linarith
  unfold infer_radii at hf
  rw [if_neg hnot] at hf
  cases forward_speed_kt with
  | none =>
    have hf' := Option.some.inj hf
    subst hf'
    exact ⟨_, _, _, hb _, hb _, hb _, Iff.rfl⟩
  | some s =>
    dsimp only at hf
    by_cases hs : 0 < s
    · rw [if_pos hs] at hf
      have hf' := Option.some.inj hf
      subst hf'
      have hm := quadrant_multiplier_pos q hs
      refine
        ⟨base_radius (BASIN_COEFFICIENTS basin Threshold.t34) vmax_kt * quadrant_multiplier q s,
         base_radius (BASIN_COEFFICIENTS basin Threshold.t50) vmax_kt * quadrant_multiplier q s,
         base_radius (BASIN_COEFFICIENTS basin Threshold.t64) vmax_kt * quadrant_multiplier q s,
         ?_, ?_, ?_, ?_⟩
      · dsimp only
        rw [hb]
        rfl
      · dsimp only
        rw [hb]
        rfl
      · dsimp only
        rw [hb]
        rfl
      · rw [mul_le_mul_right hm, mul_le_mul_right hm]
    · rw [if_neg hs] at hf
      have hf' := Option.some.inj hf
      subst hf'
      exact ⟨_, _, _, hb _, hb _, hb _, Iff.rfl⟩

/-- Witness for the amended C6: basin WP at exactly 64 kt with no forward
speed. -/
theorem radii_nesting_iff_base_witness :
    ((64 : ℝ) ≤ 64) ∧
    (infer_radii "WP" 64 none = some (fun _ t => base_radii_opt "WP" 64 t)) ∧
    (∃ r34 r50 r64,
      (fun _ t => base_radii_opt "WP" 64 t) Quadrant.NE Threshold.t34 = some r34 ∧
      (fun _ t => base_radii_opt "WP" 64 t) Quadrant.NE Threshold.t50 = some r50 ∧
      (fun _ t => base_radii_opt "WP" 64 t) Quadrant.NE Threshold.t64 = some r64 ∧
      ((r64 ≤ r50 ∧ r50 ≤ r34) ↔
        (base_radius (BASIN_COEFFICIENTS "WP" Threshold.t64) 64 ≤
           base_radius (BASIN_COEFFICIENTS "WP" Threshold.t50) 64 ∧
         base_radius (BASIN_COEFFICIENTS "WP" Threshold.t50) 64 ≤
           base_radius (BASIN_COEFFICIENTS "WP" Threshold.t34) 64))) := by
  have h1 : (64 : ℝ) ≤ 64 := le_refl _
  have h2 : infer_radii "WP" 64 none = some (fun _ t => base_radii_opt "WP" 64 t) := by
    unfold infer_radii
    rw [if_neg (by norm_num)]
  exact ⟨h1, h2, radii_nesting_iff_base "WP" 64 none Quadrant.NE h1 _ h2⟩

end TCTFS
